import Mathlib

/-!
Shallow embedding of the durable task scheduler and conversation-log store
implemented in `packages/core/src/core/mongo-db.ts` (class `MongoDb`).

A Mongo collection is modelled as a `List` of documents in natural (insertion)
order.  `updateOne` updates at most one document — the first one matching the
filter — which is modelled by `updateFirst`.  `find ... sort ... limit` is
modelled by `List.filter`, a stable `insertionSort` and `List.take`.  Dates are
modelled as natural-number timestamps; the server clock is passed explicitly as
a `now` argument to each operation that calls `new Date()` in the source.
`ObjectId` is modelled as `Nat`.  Opaque payloads (`taskData`, message `data`)
are modelled as `String`: the store never inspects them.
-/

/-- Task status: `"pending" | "running" | "completed" | "failed"`. -/
inductive TaskStatus
  | pending
  | running
  | completed
  | failed
deriving DecidableEq, Repr

/-- The `ScheduledTask` document shape (interface `ScheduledTask`).
`intervalMs : Option Nat` models the optional `intervalMs?: number` field. -/
structure ScheduledTask where
  _id : Nat
  userId : String
  handlerName : String
  taskData : String
  nextRunAt : Nat
  intervalMs : Option Nat
  status : TaskStatus
  createdAt : Nat
  updatedAt : Nat
deriving DecidableEq, Repr

/-- Handler role of an orchestrator message: `"input" | "output" | "action"`. -/
inductive HandlerRole
  | input
  | output
  | action
deriving DecidableEq, Repr

/-- The `OrchestratorMessage` document shape. -/
structure OrchestratorMessage where
  role : HandlerRole
  name : String
  data : String
  timestamp : Nat
deriving DecidableEq, Repr

/-- The `OrchestratorChat` (session) document shape. -/
structure OrchestratorChat where
  _id : Nat
  userId : String
  createdAt : Nat
  updatedAt : Nat
  messages : List OrchestratorMessage
deriving DecidableEq, Repr

/-- Mongo `updateOne`: apply `f` to the first element satisfying `p`, leave
everything else unchanged (updates at most one document). -/
def updateFirst (p : α → Bool) (f : α → α) : List α → List α
  | [] => []
  | x :: xs => if p x then f x :: xs else x :: updateFirst p f xs

/-- `createTask(userId, handlerName, taskData, nextRunAt, intervalMs?)`:
builds a document with `status: "pending"`, `createdAt = updatedAt = now`,
inserts it (`insertOne` appends to the collection) and returns the generated
id.  The source performs no validation of any argument.  `newId` models the
driver-generated `ObjectId` of `insertOne`. -/
def createTask (store : List ScheduledTask) (userId handlerName : String)
    (taskData : String) (nextRunAt : Nat) (intervalMs : Option Nat)
    (now : Nat) (newId : Nat) : List ScheduledTask × Nat :=
  let doc : ScheduledTask :=
    { _id := newId
      userId := userId
      handlerName := handlerName
      taskData := taskData
      nextRunAt := nextRunAt
      intervalMs := intervalMs
      status := .pending
      createdAt := now
      updatedAt := now }
  (store ++ [doc], newId)

/-- `findDueTasks(limit)`: `find({status: "pending", nextRunAt: {$lte: now}})`,
sorted by `nextRunAt` ascending, limited to `limit` documents. -/
def findDueTasks (store : List ScheduledTask) (now : Nat) (limit : Nat) :
    List ScheduledTask :=
  (((store.filter fun t => t.status == .pending && decide (t.nextRunAt ≤ now))).insertionSort
      (fun a b => a.nextRunAt ≤ b.nextRunAt)).take limit

/-- `markRunning(taskId)`: `updateOne({_id: taskId}, {$set: {status: "running",
updatedAt: now}})`.  The filter matches on `_id` only: there is no condition on
the current status, and the source returns `void`. -/
def markRunning (store : List ScheduledTask) (taskId : Nat) (now : Nat) :
    List ScheduledTask :=
  updateFirst (fun t => t._id == taskId)
    (fun t => { t with status := .running, updatedAt := now }) store

/-- `markCompleted(taskId, failed = false)`: `updateOne({_id: taskId},
{$set: {status: failed ? "failed" : "completed", updatedAt: now}})`.
Again the filter matches on `_id` only. -/
def markCompleted (store : List ScheduledTask) (taskId : Nat) (failed : Bool)
    (now : Nat) : List ScheduledTask :=
  updateFirst (fun t => t._id == taskId)
    (fun t => { t with status := if failed then .failed else .completed,
                       updatedAt := now }) store

/-- `updateNextRun(taskId, newRunTime)`: `updateOne({_id: taskId},
{$set: {status: "pending", nextRunAt: newRunTime, updatedAt: now}})`. -/
def updateNextRun (store : List ScheduledTask) (taskId : Nat)
    (newRunTime : Nat) (now : Nat) : List ScheduledTask :=
  updateFirst (fun t => t._id == taskId)
    (fun t => { t with status := .pending, nextRunAt := newRunTime,
                       updatedAt := now }) store

/-- `rescheduleIfRecurring(task)`: the source tests `if (!task.intervalMs)`,
i.e. JavaScript truthiness — both an absent `intervalMs` and `intervalMs === 0`
take the `markCompleted` branch; otherwise `newRunTime = Date.now() +
task.intervalMs` and `updateNextRun` is called.  `task.intervalMs.getD 0 = 0`
holds exactly when `task.intervalMs` is `none` or `some 0`, matching the
falsiness of `undefined` and `0`. -/
def rescheduleIfRecurring (store : List ScheduledTask) (task : ScheduledTask)
    (now : Nat) : List ScheduledTask :=
  if task.intervalMs.getD 0 = 0 then
    markCompleted store task._id false now
  else
    updateNextRun store task._id (now + task.intervalMs.getD 0) now

/-- `deleteAll()`: `deleteMany({})` removes every document. -/
def deleteAll (_store : List ScheduledTask) : List ScheduledTask := []

/-- `createOrchestrator(userId)`: inserts an empty session with
`createdAt = updatedAt = now` and no messages, returning the generated id. -/
def createOrchestrator (store : List OrchestratorChat) (userId : String)
    (now : Nat) (newId : Nat) : List OrchestratorChat × Nat :=
  let chat : OrchestratorChat :=
    { _id := newId, userId := userId, createdAt := now, updatedAt := now,
      messages := [] }
  (store ++ [chat], newId)

/-- `addMessage(orchestratorId, role, name, data)`: `updateOne({_id},
{$push: {messages: {role, name, data, timestamp: now}}, $set: {updatedAt:
now}})` — `$push` appends one element at the end of the `messages` array. -/
def addMessage (store : List OrchestratorChat) (orchestratorId : Nat)
    (role : HandlerRole) (name : String) (data : String) (now : Nat) :
    List OrchestratorChat :=
  updateFirst (fun c => c._id == orchestratorId)
    (fun c =>
      { c with
        messages := c.messages ++
          [{ role := role, name := name, data := data, timestamp := now }]
        updatedAt := now }) store

/-- `getMessages(orchestratorId)`: `findOne({_id})`; returns `[]` when no
document matches, otherwise the document's `messages` array. -/
def getMessages (store : List OrchestratorChat) (orchestratorId : Nat) :
    List OrchestratorMessage :=
  match store.find? (fun c => c._id == orchestratorId) with
  | none => []
  | some doc => doc.messages

/-- `findOrchestratorsByUser(userId)`: `find({userId}).toArray()` — no sort. -/
def findOrchestratorsByUser (store : List OrchestratorChat) (userId : String) :
    List OrchestratorChat :=
  store.filter (fun c => c.userId == userId)

/-- `getOrchestratorsByUserId(userId)`: `find({userId}).sort({createdAt: -1})`
— the matching sessions ordered by `createdAt` descending (newest first). -/
def getOrchestratorsByUserId (store : List OrchestratorChat)
    (userId : String) : List OrchestratorChat :=
  (store.filter (fun c => c.userId == userId)).insertionSort
    (fun a b => b.createdAt ≤ a.createdAt)

/-- `getOrchestratorById(orchestratorId)`: `findOne({_id})`. -/
def getOrchestratorById (store : List OrchestratorChat)
    (orchestratorId : Nat) : Option OrchestratorChat :=
  store.find? (fun c => c._id == orchestratorId)

instance : DecidableRel (fun a b : ScheduledTask => a.nextRunAt ≤ b.nextRunAt) :=
  fun a b => Nat.decLe a.nextRunAt b.nextRunAt

instance : IsTotal ScheduledTask (fun a b => a.nextRunAt ≤ b.nextRunAt) :=
  ⟨fun a b => Nat.le_total a.nextRunAt b.nextRunAt⟩

instance : IsTrans ScheduledTask (fun a b => a.nextRunAt ≤ b.nextRunAt) :=
  ⟨fun _ _ _ hab hbc => Nat.le_trans hab hbc⟩

instance : DecidableRel (fun a b : OrchestratorChat => b.createdAt ≤ a.createdAt) :=
  fun a b => Nat.decLe b.createdAt a.createdAt

instance : IsTotal OrchestratorChat (fun a b => b.createdAt ≤ a.createdAt) :=
  ⟨fun a b => (Nat.le_total b.createdAt a.createdAt)⟩

instance : IsTrans OrchestratorChat (fun a b => b.createdAt ≤ a.createdAt) :=
  ⟨fun _ _ _ hab hbc => Nat.le_trans hbc hab⟩

/-!
Connection lifecycle (`connect`).  The `MongoClient` driver handle is modelled
by `ClientState`: `connected` is whether a server connection is established and
`connectListeners` is `client.listenerCount("connect")`, the number of
event-emitter listeners registered for the `"connect"` event.  The driver's
`client.connect()` establishes the connection; on an already-connected client
it is a no-op (it does not tear down and re-establish the connection), which is
modelled by `clientConnect` being idempotent on the state.  `createIndex` is
idempotent in Mongo: creating an index that already exists leaves the
collection's index set unchanged.
-/

/-- Driver client handle state. -/
structure ClientState where
  connected : Bool
  connectListeners : Nat
deriving DecidableEq, Repr

/-- `client.connect()`: establishes the connection; no-op when already
connected. -/
def clientConnect (c : ClientState) : ClientState :=
  { c with connected := true }

/-- `createIndex(spec)`: adds the index when absent, no-op when present. -/
def createIndex (idxs : List String) (i : String) : List String :=
  if i ∈ idxs then idxs else idxs ++ [i]

/-- Observable state of a `MongoDb` instance: the client handle, the
initialized collection handles (`db`/collection names) and the indexes created
on each collection. -/
structure MongoDbState where
  client : ClientState
  collection : Option (String × String)
  taskIndexes : List String
  orchestratorCollection : Option (String × String)
  orchestratorIndexes : List String
deriving DecidableEq, Repr

/-- `connect()`: `if (!this.client.listenerCount("connect")) await
this.client.connect();` then initializes `this.collection`, creates the
`nextRunAt` and `status` indexes, initializes `this.orchestratorCollection`
(collection `"orchestrators"`) and creates its `userId` index. -/
def connect (s : MongoDbState) (dbName collectionName : String) :
    MongoDbState :=
  let c := if s.client.connectListeners == 0 then clientConnect s.client
           else s.client
  { client := c
    collection := some (dbName, collectionName)
    taskIndexes := createIndex (createIndex s.taskIndexes "nextRunAt") "status"
    orchestratorCollection := some (dbName, "orchestrators")
    orchestratorIndexes := createIndex s.orchestratorIndexes "userId" }

/-!
General lemmas about `updateFirst`.
-/

theorem updateFirst_of_forall_false {p : α → Bool} {f : α → α} {l : List α}
    (h : ∀ x ∈ l, p x = false) : updateFirst p f l = l := by
  induction l with
  | nil => rfl
  | cons x xs ih =>
    have hx : p x = false := h x (List.mem_cons_self x xs)
    simp [updateFirst, hx, ih fun y hy => h y (List.mem_cons_of_mem x hy)]

theorem updateFirst_append_cons {p : α → Bool} {f : α → α} {pre post : List α}
    {x : α} (hpre : ∀ y ∈ pre, p y = false) (hx : p x = true) :
    updateFirst p f (pre ++ x :: post) = pre ++ f x :: post := by
  induction pre with
  | nil => simp [updateFirst, hx]
  | cons y ys ih =>
    have hy : p y = false := hpre y (List.mem_cons_self y ys)
    simp [updateFirst, hy,
      ih fun z hz => hpre z (List.mem_cons_of_mem y hz)]

theorem find?_append_cons {p : α → Bool} {pre post : List α} {x : α}
    (hpre : ∀ y ∈ pre, p y = false) (hx : p x = true) :
    (pre ++ x :: post).find? p = some x := by
  induction pre with
  | nil => simp [List.find?, hx]
  | cons y ys ih =>
    have hy : p y = false := hpre y (List.mem_cons_self y ys)
    simp only [List.cons_append, List.find?, hy]
    exact ih fun z hz => hpre z (List.mem_cons_of_mem y hz)

theorem clientConnect_idem (c : ClientState) :
    clientConnect (clientConnect c) = clientConnect c := rfl

theorem mem_createIndex_self (l : List String) (i : String) :
    i ∈ createIndex l i := by
  by_cases h : i ∈ l <;> simp [createIndex, h]

theorem createIndex_of_mem {l : List String} {i : String} (h : i ∈ l) :
    createIndex l i = l := by
  simp [createIndex, h]

theorem mem_createIndex_of_mem {l : List String} {j : String} (i : String)
    (h : j ∈ l) : j ∈ createIndex l i := by
  by_cases hi : i ∈ l <;> simp [createIndex, hi, h]

/-- C9: connection establishment is idempotent — running `connect` a second
time on the state produced by a first `connect` (same database and collection
names) leaves the observable store state exactly as after the single
`connect`: the client is not re-connected, the collection handles are the
same, and `createIndex` on the already-created indexes is a no-op. -/
theorem connect_idempotent (s : MongoDbState) (dbName collectionName : String) :
    connect (connect s dbName collectionName) dbName collectionName =
      connect s dbName collectionName := by
  unfold connect
  have hnr : "nextRunAt" ∈
      createIndex (createIndex s.taskIndexes "nextRunAt") "status" :=
    mem_createIndex_of_mem _ (mem_createIndex_self _ _)
  have hst : "status" ∈
      createIndex (createIndex s.taskIndexes "nextRunAt") "status" :=
    mem_createIndex_self _ _
  have hui : "userId" ∈ createIndex s.orchestratorIndexes "userId" :=
    mem_createIndex_self _ _
  by_cases h : s.client.connectListeners == 0 <;>
    simp [h, clientConnect, createIndex_of_mem hnr,
      createIndex_of_mem hst, createIndex_of_mem hui,
      createIndex_of_mem (mem_createIndex_self _ _)]

/-- C1: `markRunning` is not a conditional claim.  Its `updateOne` filter is
`{_id: taskId}` alone, so it sets `status: "running"` whatever the current
status is, and it returns `void`, not a success boolean.  Evaluated at the
failing input — a task that is already `completed` (equally: already claimed
by a concurrent worker) — `markRunning` still overwrites the status to
`running` and refreshes `updatedAt`, instead of leaving the non-pending task
unchanged and reporting a failed claim. -/
theorem markRunning_overwrites_completed_task :
    markRunning [⟨1, "u", "h", "d", 0, none, .completed, 0, 3⟩] 1 5 =
      [⟨1, "u", "h", "d", 0, none, .running, 0, 5⟩] ∧
    markRunning [⟨1, "u", "h", "d", 0, none, .running, 0, 3⟩] 1 5 =
      [⟨1, "u", "h", "d", 0, none, .running, 0, 5⟩] := by
  constructor <;> rfl

/-- C2 counterexample: `createTask` with an empty `handlerName` does not fail —
it persists a `pending` task record with `handlerName = ""` and returns its id,
so the claimed `ValidationError` (and the claim that nothing is persisted) is
false at this input. -/
theorem createTask_empty_handlerName_persists :
    (createTask [] "u" "" "payload" 5 none 3 1).1 =
      [⟨1, "u", "", "payload", 5, none, .pending, 3, 3⟩] ∧
    (createTask [] "u" "" "payload" 5 none 3 1).1 ≠ [] ∧
    (createTask [] "u" "" "payload" 5 none 3 1).2 = 1 := by
  refine ⟨rfl, ?_, rfl⟩
  simp [createTask]

/-- C2 amended: `createTask` performs no input validation.  For every input —
the empty handler name included — it appends exactly one document to the
collection, leaves the existing documents unchanged, and the new document
carries the given fields with `status = pending` and
`createdAt = updatedAt = now`; the generated id is returned. -/
theorem createTask_no_validation (store : List ScheduledTask)
    (u h d : String) (nextRunAt : Nat) (intervalMs : Option Nat)
    (now newId : Nat) :
    (createTask store u h d nextRunAt intervalMs now newId).1.length =
      store.length + 1 ∧
    (createTask store u h d nextRunAt intervalMs now newId).1.take
      store.length = store ∧
    ∃ doc, (createTask store u h d nextRunAt intervalMs now newId).1 =
        store ++ [doc] ∧
      doc.status = .pending ∧ doc.handlerName = h ∧ doc.userId = u ∧
      doc.taskData = d ∧ doc.nextRunAt = nextRunAt ∧
      doc.intervalMs = intervalMs ∧ doc.createdAt = now ∧
      doc.updatedAt = now ∧ doc._id = newId ∧
      (createTask store u h d nextRunAt intervalMs now newId).2 = newId := by
  refine ⟨by simp [createTask], ?_, ?_⟩
  · simp [createTask, List.take_left]
  · exact ⟨_, rfl, rfl, rfl, rfl, rfl, rfl, rfl, rfl, rfl, rfl, rfl⟩

/-- C10: a task whose `intervalMs` field is present but equal to `0` is
treated as non-recurring: `!task.intervalMs` is true for `0` (JavaScript
truthiness), so `rescheduleIfRecurring` takes the `markCompleted` branch
(status becomes `completed`) instead of rescheduling the task to `pending`. -/
theorem rescheduleIfRecurring_zero_interval (store : List ScheduledTask)
    (task : ScheduledTask) (now : Nat) (h : task.intervalMs = some 0) :
    rescheduleIfRecurring store task now =
      markCompleted store task._id false now := by
  simp [rescheduleIfRecurring, h]

/-- C10 witness: concrete evaluation at a task with `intervalMs = some 0`;
the task ends `completed`, not `pending`. -/
theorem rescheduleIfRecurring_zero_interval_witness :
    rescheduleIfRecurring [⟨1, "u", "h", "d", 2, some 0, .running, 0, 0⟩]
        ⟨1, "u", "h", "d", 2, some 0, .running, 0, 0⟩ 9 =
      markCompleted [⟨1, "u", "h", "d", 2, some 0, .running, 0, 0⟩] 1 false 9 ∧
    markCompleted [⟨1, "u", "h", "d", 2, some 0, .running, 0, 0⟩] 1 false 9 =
      [⟨1, "u", "h", "d", 2, some 0, .completed, 0, 9⟩] :=
  ⟨rescheduleIfRecurring_zero_interval _ _ 9 rfl, by rfl⟩

/-- C3 counterexample: for a task whose `intervalMs` is set (present) but equal
to `0`, the claim as stated predicts the recurring branch — status back to
`pending` with `nextRunAt = now + 0` — yet `rescheduleIfRecurring` marks the
task `completed`, because the source tests truthiness of `intervalMs`, not its
presence. -/
theorem rescheduleIfRecurring_set_interval_not_rescheduled :
    rescheduleIfRecurring [⟨1, "u", "h", "d", 2, some 0, .running, 0, 0⟩]
        ⟨1, "u", "h", "d", 2, some 0, .running, 0, 0⟩ 9 =
      [⟨1, "u", "h", "d", 2, some 0, .completed, 0, 9⟩] ∧
    rescheduleIfRecurring [⟨1, "u", "h", "d", 2, some 0, .running, 0, 0⟩]
        ⟨1, "u", "h", "d", 2, some 0, .running, 0, 0⟩ 9 ≠
      [⟨1, "u", "h", "d", 2, some 0, .pending, 0, 9⟩] := by
  constructor
  · rfl
  · intro hcontra
    simp [rescheduleIfRecurring, markCompleted, updateFirst] at hcontra

/-- C3 amended: `rescheduleIfRecurring(task)` marks the task `completed` when
`intervalMs` is unset **or equal to 0** (the source tests JavaScript
truthiness of `intervalMs`); for a nonzero interval `I` it sets the task back
to `pending` with `nextRunAt = now + I` (recurrence anchored to completion
time), refreshing `updatedAt` and leaving every other task and every other
field unchanged.  The store is decomposed as `pre ++ task :: post` with no
task in `pre` sharing the id, locating the document `updateOne` touches. -/
theorem rescheduleIfRecurring_spec (pre post : List ScheduledTask)
    (task : ScheduledTask) (now : Nat)
    (hpre : ∀ y ∈ pre, (y._id == task._id) = false) :
    ((task.intervalMs = none ∨ task.intervalMs = some 0) →
      rescheduleIfRecurring (pre ++ task :: post) task now =
        pre ++ { task with status := .completed, updatedAt := now } :: post) ∧
    (∀ i, task.intervalMs = some i → i ≠ 0 →
      rescheduleIfRecurring (pre ++ task :: post) task now =
        pre ++ { task with status := .pending, nextRunAt := now + i,
                           updatedAt := now } :: post) := by
  constructor
  · intro hzero
    have hz : task.intervalMs.getD 0 = 0 := by
      rcases hzero with h | h <;> simp [h]
    rw [rescheduleIfRecurring, if_pos hz, markCompleted,
      updateFirst_append_cons hpre (by simp)]
    simp
  · intro i hi hne
    have hz : ¬ task.intervalMs.getD 0 = 0 := by simp [hi, hne]
    rw [rescheduleIfRecurring, if_neg hz, updateNextRun,
      updateFirst_append_cons hpre (by simp)]
    simp [hi]

/-- C3 witness: concrete recurring task with `intervalMs = some 60000`
completed at time 9; it is rescheduled to `pending` with
`nextRunAt = 9 + 60000`. -/
theorem rescheduleIfRecurring_spec_witness :
    rescheduleIfRecurring [⟨1, "u", "h", "d", 2, some 60000, .running, 0, 0⟩]
        ⟨1, "u", "h", "d", 2, some 60000, .running, 0, 0⟩ 9 =
      [⟨1, "u", "h", "d", 60009, some 60000, .pending, 0, 9⟩] := by
  have h := (rescheduleIfRecurring_spec []
    [] ⟨1, "u", "h", "d", 2, some 60000, .running, 0, 0⟩ 9
    (by intro y hy; cases hy)).2 60000 rfl (by decide)
  simpa using h

/-- C4: every task returned by `findDueTasks` has `status = pending` and
`nextRunAt ≤ now` (a task with `nextRunAt > now` is never returned), at most
`limit` tasks are returned, and the result is ordered by `nextRunAt`
ascending (earliest due first). -/
theorem findDueTasks_spec (store : List ScheduledTask) (now limit : Nat) :
    (∀ t ∈ findDueTasks store now limit,
      t.status = .pending ∧ t.nextRunAt ≤ now) ∧
    (findDueTasks store now limit).length ≤ limit ∧
    (findDueTasks store now limit).Sorted
      (fun a b => a.nextRunAt ≤ b.nextRunAt) := by
  refine ⟨?_, ?_, ?_⟩
  · intro t ht
    have hsort := List.take_subset limit _ ht
    have hfil : t ∈ store.filter
        fun x => x.status == .pending && decide (x.nextRunAt ≤ now) :=
      (List.perm_insertionSort (fun a b => a.nextRunAt ≤ b.nextRunAt) _).subset
        hsort
    have := (List.mem_filter.mp hfil).2
    simp only [Bool.and_eq_true, beq_iff_eq, decide_eq_true_eq] at this
    exact this
  · exact List.length_take_le limit _
  · exact (List.sorted_insertionSort
      (fun a b : ScheduledTask => a.nextRunAt ≤ b.nextRunAt) _).sublist
      (List.take_sublist limit _)

/-- C4 witness: in a concrete store holding a due pending task, a pending task
due only in the future and a running task, `findDueTasks` at `now = 10`
returns the due pending task, and the properties instantiate at it. -/
theorem findDueTasks_spec_witness :
    (⟨1, "u", "h", "d", 4, none, .pending, 0, 0⟩ : ScheduledTask) ∈
      findDueTasks [⟨1, "u", "h", "d", 4, none, .pending, 0, 0⟩,
        ⟨2, "u", "h", "d", 99, none, .pending, 0, 0⟩,
        ⟨3, "u", "h", "d", 4, none, .running, 0, 0⟩] 10 5 ∧
    (⟨1, "u", "h", "d", 4, none, .pending, 0, 0⟩ : ScheduledTask).status =
        .pending ∧
    (⟨1, "u", "h", "d", 4, none, .pending, 0, 0⟩ : ScheduledTask).nextRunAt
        ≤ 10 :=
  ⟨by decide,
   (findDueTasks_spec [⟨1, "u", "h", "d", 4, none, .pending, 0, 0⟩,
        ⟨2, "u", "h", "d", 99, none, .pending, 0, 0⟩,
        ⟨3, "u", "h", "d", 4, none, .running, 0, 0⟩] 10 5).1
      ⟨1, "u", "h", "d", 4, none, .pending, 0, 0⟩ (by decide)⟩

/-- C5 counterexample: `completed` is not terminal and `markCompleted` is not
a no-op on an already-terminal task.  On a task whose status is already
`completed`, `markCompleted(taskId, failed := true)` overwrites the status to
`failed` and refreshes `updatedAt`; the record does not stay unchanged. -/
theorem markCompleted_not_noop_on_terminal :
    markCompleted [⟨1, "u", "h", "d", 0, none, .completed, 0, 3⟩] 1 true 7 =
      [⟨1, "u", "h", "d", 0, none, .failed, 0, 7⟩] ∧
    markCompleted [⟨1, "u", "h", "d", 0, none, .completed, 0, 3⟩] 1 true 7 ≠
      [⟨1, "u", "h", "d", 0, none, .completed, 0, 3⟩] := by
  refine ⟨rfl, ?_⟩
  intro hcontra
  simp [markCompleted, updateFirst] at hcontra

/-- C5 amended: no status is enforced terminal.  `markCompleted`,
`updateNextRun` and `markRunning` all filter on `_id` alone and overwrite the
matched task's status — whatever its current status, `completed` and `failed`
included — refreshing `updatedAt` and leaving all other fields and all other
tasks unchanged; in particular `markCompleted` on an already-terminal task is
not a no-op (it rewrites `updatedAt`, and can flip `completed` to `failed`
and back). -/
theorem status_overwritten_regardless (pre post : List ScheduledTask)
    (t : ScheduledTask) (failed : Bool) (newRunTime now : Nat)
    (hpre : ∀ y ∈ pre, (y._id == t._id) = false) :
    markCompleted (pre ++ t :: post) t._id failed now =
      pre ++ { t with status := if failed then .failed else .completed,
                      updatedAt := now } :: post ∧
    updateNextRun (pre ++ t :: post) t._id newRunTime now =
      pre ++ { t with status := .pending, nextRunAt := newRunTime,
                      updatedAt := now } :: post ∧
    markRunning (pre ++ t :: post) t._id now =
      pre ++ { t with status := .running, updatedAt := now } :: post := by
  refine ⟨?_, ?_, ?_⟩
  · rw [markCompleted, updateFirst_append_cons hpre (by simp)]
  · rw [updateNextRun, updateFirst_append_cons hpre (by simp)]
  · rw [markRunning, updateFirst_append_cons hpre (by simp)]

/-- C5 witness: the amended behaviour evaluated on a concrete `completed`
task — `markCompleted(failed := true)` turns it `failed`. -/
theorem status_overwritten_regardless_witness :
    markCompleted [⟨1, "u", "h", "d", 0, none, .completed, 0, 3⟩] 1 true 7 =
      [⟨1, "u", "h", "d", 0, none, .failed, 0, 7⟩] := by
  have h := (status_overwritten_regardless []
    [] ⟨1, "u", "h", "d", 0, none, .completed, 0, 3⟩ true 0 7
    (by intro y hy; cases hy)).1
  simpa using h

/-- C6: for an existing session, `addMessage` appends exactly one message —
carrying the server-assigned timestamp `now` — at the end of the session's
message sequence and sets the session's `updatedAt` to `now`; every
previously appended message keeps its content and position (the old sequence
is the prefix of the new one), and every other session is unchanged. -/
theorem addMessage_appends (pre post : List OrchestratorChat)
    (c : OrchestratorChat) (role : HandlerRole) (name data : String)
    (now : Nat) (hpre : ∀ y ∈ pre, (y._id == c._id) = false) :
    addMessage (pre ++ c :: post) c._id role name data now =
      pre ++ { c with
        messages := c.messages ++
          [{ role := role, name := name, data := data, timestamp := now }]
        updatedAt := now } :: post ∧
    (c.messages ++
      [{ role := role, name := name, data := data,
         timestamp := now : OrchestratorMessage }]).take c.messages.length =
      c.messages ∧
    (c.messages ++
      [{ role := role, name := name, data := data,
         timestamp := now : OrchestratorMessage }]).length =
      c.messages.length + 1 := by
  refine ⟨?_, ?_, by simp⟩
  · rw [addMessage, updateFirst_append_cons hpre (by simp)]
  · simp [List.take_left]

/-- C6 witness: appending to a concrete one-session store with one prior
message; the prior message keeps position 0 and the new message, stamped with
the server time 8, sits at the end. -/
theorem addMessage_appends_witness :
    addMessage [⟨1, "u", 0, 2, [⟨.input, "twitter", "hi", 2⟩]⟩] 1
        .output "reply" "hello" 8 =
      [⟨1, "u", 0, 8, [⟨.input, "twitter", "hi", 2⟩,
        ⟨.output, "reply", "hello", 8⟩]⟩] := by
  have h := (addMessage_appends []
    [] ⟨1, "u", 0, 2, [⟨.input, "twitter", "hi", 2⟩]⟩ .output "reply"
    "hello" 8 (by intro y hy; cases hy)).1
  simpa using h

/-- C7: `getMessages` returns the stored message sequence of the matched
session in its stored order, and the empty sequence — not an error — when no
session with the given id exists. -/
theorem getMessages_spec (store pre post : List OrchestratorChat)
    (c : OrchestratorChat) (sid : Nat) :
    ((∀ x ∈ store, (x._id == sid) = false) → getMessages store sid = []) ∧
    ((∀ y ∈ pre, (y._id == c._id) = false) →
      getMessages (pre ++ c :: post) c._id = c.messages) := by
  constructor
  · intro habsent
    have hnone : store.find? (fun x => x._id == sid) = none :=
      List.find?_eq_none.mpr fun x hx => by simp [habsent x hx]
    simp [getMessages, hnone]
  · intro hpre
    have hfound : (pre ++ c :: post).find? (fun y => y._id == c._id) =
        some c := find?_append_cons hpre (by simp)
    simp [getMessages, hfound]

/-- C7 witness: on a concrete store holding session 1, `getMessages 1` returns
its two messages in order and `getMessages 2` (absent id) returns `[]`. -/
theorem getMessages_spec_witness :
    getMessages [⟨1, "u", 0, 2, [⟨.input, "a", "x", 1⟩, ⟨.output, "b", "y", 2⟩]⟩]
        2 = [] ∧
    getMessages [⟨1, "u", 0, 2, [⟨.input, "a", "x", 1⟩, ⟨.output, "b", "y", 2⟩]⟩]
        1 = [⟨.input, "a", "x", 1⟩, ⟨.output, "b", "y", 2⟩] :=
  ⟨(getMessages_spec [⟨1, "u", 0, 2, [⟨.input, "a", "x", 1⟩,
      ⟨.output, "b", "y", 2⟩]⟩] [] []
      ⟨1, "u", 0, 2, [⟨.input, "a", "x", 1⟩, ⟨.output, "b", "y", 2⟩]⟩ 2).1
      (by decide),
   (getMessages_spec [] []
      [] ⟨1, "u", 0, 2, [⟨.input, "a", "x", 1⟩, ⟨.output, "b", "y", 2⟩]⟩ 0).2
      (by intro y hy; cases hy)⟩

/-- C8: `getOrchestratorsByUserId` returns exactly the sessions owned by the
given user — its result is a permutation of the owned sessions, and a session
belongs to the result iff it is in the store and owned by the user — ordered
newest-first by `createdAt` (descending). -/
theorem getOrchestratorsByUserId_spec (store : List OrchestratorChat)
    (u : String) :
    (getOrchestratorsByUserId store u).Perm
      (store.filter (fun c => c.userId == u)) ∧
    (∀ c, c ∈ getOrchestratorsByUserId store u ↔
      c ∈ store ∧ c.userId = u) ∧
    (getOrchestratorsByUserId store u).Sorted
      (fun a b => b.createdAt ≤ a.createdAt) := by
  refine ⟨List.perm_insertionSort _ _, ?_, List.sorted_insertionSort _ _⟩
  intro c
  unfold getOrchestratorsByUserId
  constructor
  · intro hc
    have hf : c ∈ store.filter (fun x => x.userId == u) :=
      (List.perm_insertionSort (fun a b => b.createdAt ≤ a.createdAt) _).subset
        hc
    have hm := List.mem_filter.mp hf
    exact ⟨hm.1, by simpa using hm.2⟩
  · intro hc
    exact (List.perm_insertionSort (fun a b => b.createdAt ≤ a.createdAt)
        (store.filter (fun x => x.userId == u))).mem_iff.mpr
      (List.mem_filter.mpr ⟨hc.1, by
        show (c.userId == u) = true
        exact beq_iff_eq.mpr hc.2⟩)

/-- C8 witness: in a concrete store with two sessions of user `"u"` (created
at 1 and 5) and one of another user, the result lists user `"u"`'s sessions
newest first, and membership instantiates at the older one. -/
theorem getOrchestratorsByUserId_spec_witness :
    getOrchestratorsByUserId [⟨1, "u", 1, 1, []⟩, ⟨2, "v", 9, 9, []⟩,
        ⟨3, "u", 5, 5, []⟩] "u" = [⟨3, "u", 5, 5, []⟩, ⟨1, "u", 1, 1, []⟩] ∧
    (⟨1, "u", 1, 1, []⟩ : OrchestratorChat) ∈
      getOrchestratorsByUserId [⟨1, "u", 1, 1, []⟩, ⟨2, "v", 9, 9, []⟩,
        ⟨3, "u", 5, 5, []⟩] "u" :=
  ⟨by decide,
   ((getOrchestratorsByUserId_spec [⟨1, "u", 1, 1, []⟩, ⟨2, "v", 9, 9, []⟩,
      ⟨3, "u", 5, 5, []⟩] "u").2.1 ⟨1, "u", 1, 1, []⟩).mpr
     ⟨by decide, rfl⟩⟩
